import Mathlib

/-!
# Network device discovery of `sysinfo` (network.go, sysinfo.go)

A shallow embedding of `getPortType`, `getMaxSpeed`, `getSupported`,
`readIfaceSpeed`, `getIPAddrByInterface` and `(*SysInfo).getNetworkInfo`,
followed by the properties proved about them.

Conventions of the embedding.
* Go `string` values are Lean `String`s; string helpers of the Go standard
  library are re-implemented by structural recursion on the character list.
* `uint32`, `uint` and `int` values are `Nat` / `Int`; a value that enters from
  the kernel is reduced `% 2 ^ 32`, a conversion `uint(s)` is reduced `% 2 ^ 64`.
* The operating system is an explicit environment `Env` of call outcomes.
* A run-time panic (nil pointer dereference) is an explicit outcome.
-/

namespace Sysinfo

/-! ## Go standard library helpers on strings -/

/-- Go `strings.TrimRight(s, cutset)`: `s` without its trailing characters that
occur in `cutset`. -/
def TrimRight (s cutset : String) : String :=
  ⟨(s.data.reverse.dropWhile (fun c => cutset.data.contains c)).reverse⟩

/-- Go `strings.HasPrefix(s, pre)`. -/
def HasPrefix (s pre : String) : Bool :=
  pre.data.isPrefixOf s.data

/-- Go `strings.TrimSpace` uses `unicode.IsSpace`: the Latin-1 spaces
`\t \n \v \f \r`, space, U+0085, U+00A0, and the code points with the Unicode
White_Space property. -/
def isSpace (c : Char) : Bool :=
  let n := c.toNat
  (9 ≤ n && n ≤ 13) || n == 0x20 || n == 0x85 || n == 0xA0 || n == 0x1680 ||
  (0x2000 ≤ n && n ≤ 0x200A) || n == 0x2028 || n == 0x2029 || n == 0x202F ||
  n == 0x205F || n == 0x3000

/-- Go `strings.TrimSpace(s)`: `s` without leading and trailing white space. -/
def TrimSpace (s : String) : String :=
  ⟨((s.data.dropWhile isSpace).reverse.dropWhile isSpace).reverse⟩

/-- Value of a string of decimal digits, most significant digit first. -/
def digitsValue (ds : List Char) : Nat :=
  ds.foldl (fun n ch => n * 10 + (ch.toNat - 48)) 0

/-- Byte test `ch - '0' <= 9` of the Go digit loops. -/
def isDigit (ch : Char) : Bool :=
  48 ≤ ch.toNat && ch.toNat ≤ 57

/-- Width in bits of Go `int` and `uint` on the 64-bit Linux targets. -/
def intSize : Nat := 64

/-- Go `strconv.Atoi(s)`, `none` standing for a non-nil error: an optional sign
followed by at least one decimal digit and nothing else (otherwise a syntax
error), the value being inside the range of `int` (otherwise a range error). -/
def Atoi (s : String) : Option Int :=
  match s.data with
  | [] => none
  | c :: cs =>
    let neg := c == '-'
    let ds := if c == '-' || c == '+' then cs else c :: cs
    if ds.isEmpty then none
    else if !ds.all isDigit then none
    else
      let un := digitsValue ds
      if !neg && un ≥ 2 ^ (intSize - 1) then none
      else if neg && un > 2 ^ (intSize - 1) then none
      else some (if neg then -(un : Int) else (un : Int))

/-- Split a path at every `/`. -/
def splitSlash (p : List Char) : List (List Char) :=
  p.foldr (fun c acc =>
    if c = '/' then [] :: acc
    else match acc with
      | h :: t => (c :: h) :: t
      | [] => [[c]]) [[]]

/-- Element stack of Go `path.Clean`, innermost element first: empty and `.`
elements are dropped, `..` removes the preceding real element, is dropped at
the root of a rooted path and is kept at the front of a relative one. -/
def cleanStep (rooted : Bool) (stack : List (List Char)) (e : List Char) :
    List (List Char) :=
  if e = [] || e = ['.'] then stack
  else if e = ['.', '.'] then
    match stack with
    | top :: below => if top = ['.', '.'] then e :: stack else below
    | [] => if rooted then [] else [e]
  else e :: stack

/-- Go `path.Clean(path)`. -/
def pathClean (path : String) : String :=
  match path.data with
  | [] => "."
  | c :: cs =>
    let rooted := c == '/'
    let elems := ((splitSlash (c :: cs)).foldl (cleanStep rooted) []).reverse
    let body := String.intercalate "/" (elems.map String.mk)
    if rooted then "/" ++ body
    else if body.data.isEmpty then "." else body

/-- Go `path.Join(elem...)`: the non-empty elements joined by `/`, cleaned; the
empty string when every element is empty. -/
def pathJoin (elem : List String) : String :=
  let parts := elem.filter (fun e => !e.data.isEmpty)
  if parts.isEmpty then "" else pathClean (String.intercalate "/" parts)

/-- Go `path.Base(path)`: the last element of the path, trailing slashes
removed first; `.` for the empty path and `/` for a path of slashes only. -/
def pathBase (path : String) : String :=
  if path.data.isEmpty then "."
  else
    let p := (path.data.reverse.dropWhile (fun c => c == '/')).reverse
    let last := (p.reverse.takeWhile (fun c => c != '/')).reverse
    if last.isEmpty then "/" else ⟨last⟩

/-! ## Port-medium and speed decoders -/

/-- The array literal ranged over by `getPortType`. -/
def portNames : List String := ["tp", "aui", "mii", "fibre", "bnc"]

/-- Body of the `for i, p := range` loop of `getPortType`, from index `i` on. -/
def getPortTypeLoop (supp : Nat) : Nat → List String → String → String
  | _, [], port => port
  | i, p :: ps, port =>
    getPortTypeLoop supp (i + 1) ps
      (if supp &&& (1 <<< (i + 7)) > 0 then port ++ (p ++ "/") else port)

/-- Embedding of `getPortType(supp uint32) (port string)`. -/
def getPortType (supp : Nat) : String :=
  TrimRight (getPortTypeLoop supp 0 portNames "") "/"

/-- Embedding of `getMaxSpeed(supp uint32) (speed uint)`: the `switch` takes the
first case whose condition holds; with no case taken `speed` keeps its zero
value. -/
def getMaxSpeed (supp : Nat) : Nat :=
  if supp &&& 0x78000000 > 0 then 56000
  else if supp &&& 0x07800000 > 0 then 40000
  else if supp &&& 0x00600000 > 0 then 20000
  else if supp &&& 0x001c1000 > 0 then 10000
  else if supp &&& 0x00008000 > 0 then 2500
  else if supp &&& 0x00020030 > 0 then 1000
  else if supp &&& 0x0000000c > 0 then 100
  else if supp &&& 0x00000003 > 0 then 10
  else 0

/-- The string built by `getPortType` as a function of the five medium bits
(bits 7 to 11 of the bitmask), used to reason about the loop. -/
def portOfBits (b0 b1 b2 b3 b4 : Bool) : String :=
  TrimRight
    ((((("" ++ (if b0 then "tp/" else "")) ++ (if b1 then "aui/" else "")) ++
      (if b2 then "mii/" else "")) ++ (if b3 then "fibre/" else "")) ++
      (if b4 then "bnc/" else "")) "/"

/-! ## Operating-system environment -/

/-- Outcome of `os.Open(file)` followed by `ioutil.ReadAll(f)`. -/
inductive FileRead where
  | openErr : FileRead
  | readErr : FileRead
  | ok (content : String) : FileRead
  deriving DecidableEq, Repr

/-- Address value of package `net`, carried as what `addr.String()` renders. -/
structure Addr where
  str : String
  deriving DecidableEq, Repr

/-- The fields of `net.Interface` read by the scan. -/
structure Interface where
  Name : String
  MTU : Int
  deriving DecidableEq, Repr

/-- What the operating system answers to the calls issued by the scan.
`slurpFile` is the helper of this package that returns the trimmed content of
a file, the empty string on failure. -/
structure Env where
  /-- Call `ioutil.ReadDir(dirname)`: the entry names in the order returned,
  `none` on error. -/
  ReadDir : String → Option (List String)
  /-- Call `os.Readlink(name)`: the link target, `none` on error. -/
  Readlink : String → Option String
  /-- Call `syscall.Socket(AF_INET, SOCK_DGRAM, IPPROTO_IP)` as issued by the
  probe of the named interface: the descriptor, `none` on error. -/
  Socket : String → Option Nat
  /-- System call `SYS_IOCTL` on a descriptor with a request code, the 16-byte
  `ifr.Name` buffer and `ethtool.Cmd`: the `errno` and the value the kernel
  left in `ethtool.Supported`. -/
  Ioctl : Nat → Nat → List Char → Nat → Nat × Nat
  /-- Call `net.InterfaceByName(name)`: `none` is the nil pointer returned with
  an error. -/
  InterfaceByName : String → Option Interface
  /-- Method `(*net.Interface).Addrs()` on a non-nil receiver, `none` on error. -/
  Addrs : Interface → Option (List Addr)
  /-- Calls `os.Open` and `ioutil.ReadAll` on a path. -/
  OpenRead : String → FileRead
  /-- Package helper `slurpFile(path)`. -/
  slurpFile : String → String

/-! ## Data model -/

/-- Embedding of `NetworkDevice`. -/
structure NetworkDevice where
  Name : String
  Driver : String
  MACAddress : String
  IPAddress : List String
  Port : String
  Speed : Nat
  MTU : Int
  deriving DecidableEq, Repr

/-- Embedding of `SysInfo`: the `Network` slice, and `rest` for the fields that
`getNetworkInfo` never touches. -/
structure SysInfo (Rest : Type) where
  rest : Rest
  Network : List NetworkDevice

/-- How a call of `getNetworkInfo` ends, with the `SysInfo` it leaves behind
the pointer receiver: a normal return, or a run-time panic. -/
inductive Outcome (Rest : Type) where
  | returned (si : SysInfo Rest) : Outcome Rest
  | panicked (si : SysInfo Rest) : Outcome Rest

/-- The `SysInfo` left behind by a call, however it ended. -/
def Outcome.state {Rest : Type} : Outcome Rest → SysInfo Rest
  | .returned si => si
  | .panicked si => si

/-! ## Capability probe, speed reading, address collection -/

/-- The buffer `ifr.Name` after `copy(ifr.Name[:], name+"\000")`: at most 16
bytes are copied, the others keep their zero value. -/
def ifrName (name : String) : List Char :=
  let copied := (name.data ++ [Char.ofNat 0]).take 16
  copied ++ List.replicate (16 - copied.length) (Char.ofNat 0)

/-- Embedding of `getSupported(name string) uint32`. -/
def getSupported (env : Env) (name : String) : Nat :=
  match env.Socket name with
  | none => 0
  | some fd =>
    let res := env.Ioctl fd 0x8946 (ifrName name) 0x1
    if res.1 = 0 then res.2 % 2 ^ 32 else 0

/-- Embedding of `readIfaceSpeed(file string) (speed uint)`. -/
def readIfaceSpeed (env : Env) (file : String) : Nat :=
  match env.OpenRead file with
  | .openErr => 0
  | .readErr => 0
  | .ok b =>
    match Atoi (TrimSpace b) with
    | some s => if 0 < s then (s % 2 ^ intSize).toNat else 0
    | none => 0

/-- Embedding of `getIPAddrByInterface(inet *net.Interface) ([]string, error)`;
the second component tells whether the error is non-nil. On a nil receiver
`Addrs` returns an error. -/
def getIPAddrByInterface (env : Env) (inet : Option Interface) : List String × Bool :=
  let addrs : Option (List Addr) :=
    match inet with
    | none => none
    | some ifi => env.Addrs ifi
  match addrs with
  | none => ([], true)
  | some as => (as.foldl (fun ip_addrs addr => ip_addrs ++ [addr.str]) [], false)

/-! ## Device scan -/

/-- The directory scanned by `getNetworkInfo`. -/
def sysClassNet : String := "/sys/class/net"

/-- The exclusion test of the scan on a link target. -/
def isVirtual (dev : String) : Bool :=
  HasPrefix dev "../../devices/virtual/net/lo" ||
  HasPrefix dev "../../devices/virtual/net/dummy"

/-- One iteration of the loop of `getNetworkInfo` from `supp := ...` up to the
value appended to `si.Network`. `none` is the nil pointer dereference of
`inet.MTU` when `net.InterfaceByName` returned nil. -/
def buildDevice (env : Env) (name fullpath : String) : Option NetworkDevice :=
  let supp := getSupported env name
  let inet := env.InterfaceByName name
  let ip_addrs := (getIPAddrByInterface env inet).1
  let speed := readIfaceSpeed env (pathJoin [fullpath, "speed"])
  let speed := if speed = 0 then getMaxSpeed supp else speed
  match inet with
  | none => none
  | some ifi =>
    let device : NetworkDevice :=
      { Name := name
        Driver := ""
        MACAddress := env.slurpFile (pathJoin [fullpath, "address"])
        IPAddress := ip_addrs
        Port := getPortType supp
        Speed := speed
        MTU := ifi.MTU }
    match env.Readlink (pathJoin [fullpath, "device", "driver"]) with
    | some driver => some { device with Driver := pathBase driver }
    | none => some device

/-- The `for _, link := range devices` loop of `getNetworkInfo`. -/
def scanDevices {Rest : Type} (env : Env) : List String → SysInfo Rest → Outcome Rest
  | [], si => .returned si
  | name :: links, si =>
    let fullpath := pathJoin [sysClassNet, name]
    match env.Readlink fullpath with
    | none => scanDevices env links si
    | some dev =>
      if isVirtual dev then scanDevices env links si
      else
        match buildDevice env name fullpath with
        | none => .panicked si
        | some device => scanDevices env links { si with Network := si.Network ++ [device] }

/-- Embedding of `(si *SysInfo) getNetworkInfo()`. -/
def getNetworkInfo {Rest : Type} (env : Env) (si : SysInfo Rest) : Outcome Rest :=
  match env.ReadDir sysClassNet with
  | none => .returned si
  | some devices => scanDevices env devices { si with Network := [] }

/-! ## Reference definitions written from the specification -/

/-- The tokens of `portNames` whose bit `1 <<< (7 + i)` is set in `supp`, in the
order of `portNames` (specification side of the port decoder). -/
def selectedPorts (supp : Nat) : List String :=
  (portNames.enum.filter (fun ip => supp.testBit (7 + ip.1))).map (fun ip => ip.2)

/-- The ordered `(mask, speed)` table of the specification. -/
def speedTable : List (Nat × Nat) :=
  [(0x78000000, 56000), (0x07800000, 40000), (0x00600000, 20000),
   (0x001c1000, 10000), (0x00008000, 2500), (0x00020030, 1000),
   (0x0000000c, 100), (0x00000003, 10)]

/-- First-match lookup in `speedTable`, top-down; `0` when nothing matches
(specification side of the speed classifier). -/
def tableSpeed (supp : Nat) : Nat :=
  match speedTable.find? (fun e => supp &&& e.1 != 0) with
  | some e => e.2
  | none => 0

/-- Whether the entry `name` of the class directory is one the scan keeps: its
symlink resolves and the target has neither virtual prefix. -/
def isKept (env : Env) (name : String) : Bool :=
  match env.Readlink (pathJoin [sysClassNet, name]) with
  | none => false
  | some dev =>
    !(HasPrefix dev "../../devices/virtual/net/lo" ||
      HasPrefix dev "../../devices/virtual/net/dummy")

/-! ## Concrete hosts -/

/-- A host with one PCI network card `eth0` and the loopback device. -/
def hostEnv : Env where
  ReadDir := fun d => if d = "/sys/class/net" then some ["eth0", "lo"] else none
  Readlink := fun p =>
    if p = "/sys/class/net/eth0" then some "../../devices/pci0000:00/0000:00:03.0/net/eth0"
    else if p = "/sys/class/net/lo" then some "../../devices/virtual/net/lo"
    else if p = "/sys/class/net/eth0/device/driver" then
      some "../../../../bus/pci/drivers/e1000"
    else none
  Socket := fun _ => some 3
  Ioctl := fun _ _ _ _ => (0, 0x000200b0)
  InterfaceByName := fun n =>
    if n = "eth0" then some { Name := "eth0", MTU := 1500 }
    else if n = "lo" then some { Name := "lo", MTU := 65536 }
    else none
  Addrs := fun ifi => if ifi.Name = "eth0" then some [⟨"192.168.1.10/24"⟩] else some []
  OpenRead := fun p => if p = "/sys/class/net/eth0/speed" then .ok "100\n" else .openErr
  slurpFile := fun p => if p = "/sys/class/net/eth0/address" then "52:54:00:12:34:56" else ""

/-- The record of `eth0` on `hostEnv`. -/
def hostDevice : NetworkDevice where
  Name := "eth0"
  Driver := "e1000"
  MACAddress := "52:54:00:12:34:56"
  IPAddress := ["192.168.1.10/24"]
  Port := "tp"
  Speed := 100
  MTU := 1500

/-- The sysfs tree of `hostEnv` seen from a network namespace that has no
interface `eth0`: the class directory still lists it, the lookup by name
fails. -/
def strayEnv : Env :=
  { hostEnv with InterfaceByName := fun _ => none }

/-- A host with two cards, `eth0` and `eth1`, whose `eth1` cannot be looked up
by name. -/
def twoCardEnv : Env :=
  { hostEnv with
    ReadDir := fun d => if d = "/sys/class/net" then some ["eth0", "eth1"] else none
    Readlink := fun p =>
      if p = "/sys/class/net/eth0" then some "../../devices/pci0000:00/0000:00:03.0/net/eth0"
      else if p = "/sys/class/net/eth1" then
        some "../../devices/pci0000:00/0000:00:04.0/net/eth1"
      else none
    InterfaceByName := fun n =>
      if n = "eth0" then some { Name := "eth0", MTU := 1500 } else none }

/-- A host whose class directory cannot be read. -/
def unreadableEnv : Env :=
  { hostEnv with ReadDir := fun _ => none }

/-- The state left by an earlier scan of `hostEnv`. -/
def scannedInfo : SysInfo Unit :=
  { rest := (), Network := [hostDevice] }

/-- The host `hostEnv` with no socket to be had and no speed attribute. -/
def probeFailEnv : Env :=
  { hostEnv with Socket := fun _ => none, OpenRead := fun _ => .openErr }

/-- The link table of `hostEnv` without the driver link of `eth0`. -/
def noDriverLinks (p : String) : Option String :=
  if p = "/sys/class/net/eth0" then some "../../devices/pci0000:00/0000:00:03.0/net/eth0"
  else if p = "/sys/class/net/lo" then some "../../devices/virtual/net/lo"
  else none

end Sysinfo

/-! ## Properties -/

namespace Sysinfo

/-- The bit test of `getPortType` is `Nat.testBit`. -/
theorem land_two_pow_pos_iff (x k : Nat) : x &&& (1 <<< k) > 0 ↔ x.testBit k = true := by
  rw [Nat.one_shiftLeft]
  constructor
  · intro h
    by_contra hb
    have hz : x &&& 2 ^ k = 0 := by
      apply Nat.eq_of_testBit_eq
      intro i
      rw [Nat.testBit_and, Nat.testBit_two_pow, Nat.zero_testBit]
      by_cases hki : k = i
      · subst hki; simp [hb]
      · simp [hki]
    omega
  · intro h
    have hb : (x &&& 2 ^ k).testBit k = true := by
      rw [Nat.testBit_and, Nat.testBit_two_pow_self, h]; rfl
    by_contra hz
    have : x &&& 2 ^ k = 0 := by omega
    rw [this, Nat.zero_testBit] at hb
    exact Bool.false_ne_true hb

/-- The loop of `getPortType` reads bits 7 to 11 of `supp` and nothing else. -/
theorem getPortType_eq_bits (supp : Nat) :
    getPortType supp = portOfBits (supp.testBit 7) (supp.testBit 8) (supp.testBit 9)
      (supp.testBit 10) (supp.testBit 11) := by
  unfold getPortType portOfBits portNames
  simp only [getPortTypeLoop, land_two_pow_pos_iff]
  congr 1
  cases supp.testBit 7 <;> cases supp.testBit 8 <;> cases supp.testBit 9 <;>
    cases supp.testBit 10 <;> cases supp.testBit 11 <;> rfl

/-- The selected tokens as a function of bits 7 to 11. -/
theorem selectedPorts_eq_bits (supp : Nat) :
    selectedPorts supp =
      (if supp.testBit 7 then ["tp"] else []) ++ (if supp.testBit 8 then ["aui"] else []) ++
      (if supp.testBit 9 then ["mii"] else []) ++ (if supp.testBit 10 then ["fibre"] else []) ++
      (if supp.testBit 11 then ["bnc"] else []) := by
  unfold selectedPorts portNames
  simp only [List.enum, List.enumFrom, List.filter]
  cases supp.testBit 7 <;> cases supp.testBit 8 <;> cases supp.testBit 9 <;>
    cases supp.testBit 10 <;> cases supp.testBit 11 <;> rfl

/-- C1: for every bitmask, `getPortType` is the `/`-joined list of exactly the
tokens of `[tp, aui, mii, fibre, bnc]` whose bit `1 <<< (7 + i)` is set, in that
order, each token at most once and with no trailing separator; the result is
empty if and only if none of bits 7 to 11 is set, as for `0x00000020`. -/
theorem C1_getPortType (supp : Nat) :
    getPortType supp = "/".intercalate (selectedPorts supp) ∧
    (selectedPorts supp).Sublist portNames ∧ (selectedPorts supp).Nodup ∧
    (getPortType supp).data.getLast? ≠ some '/' ∧
    (getPortType supp = "" ↔ ∀ i, 7 ≤ i → i ≤ 11 → supp.testBit i = false) ∧
    getPortType 0x00000020 = "" := by
  refine ⟨?_, ?_, ?_, ?_, ?_, by decide⟩
  · rw [getPortType_eq_bits, selectedPorts_eq_bits]
    cases supp.testBit 7 <;> cases supp.testBit 8 <;> cases supp.testBit 9 <;>
      cases supp.testBit 10 <;> cases supp.testBit 11 <;> decide
  · rw [selectedPorts_eq_bits]
    cases supp.testBit 7 <;> cases supp.testBit 8 <;> cases supp.testBit 9 <;>
      cases supp.testBit 10 <;> cases supp.testBit 11 <;> decide
  · rw [selectedPorts_eq_bits]
    cases supp.testBit 7 <;> cases supp.testBit 8 <;> cases supp.testBit 9 <;>
      cases supp.testBit 10 <;> cases supp.testBit 11 <;> decide
  · rw [getPortType_eq_bits]
    cases supp.testBit 7 <;> cases supp.testBit 8 <;> cases supp.testBit 9 <;>
      cases supp.testBit 10 <;> cases supp.testBit 11 <;> decide
  · rw [getPortType_eq_bits]
    constructor
    · intro h i h7 h11
      have hi : i = 7 ∨ i = 8 ∨ i = 9 ∨ i = 10 ∨ i = 11 := by omega
      revert h
      rcases hi with rfl | rfl | rfl | rfl | rfl <;>
      cases supp.testBit 7 <;> cases supp.testBit 8 <;> cases supp.testBit 9 <;>
        cases supp.testBit 10 <;> cases supp.testBit 11 <;> decide
    · intro h
      rw [h 7 (by omega) (by omega), h 8 (by omega) (by omega), h 9 (by omega) (by omega),
        h 10 (by omega) (by omega), h 11 (by omega) (by omega)]
      decide

/-- C2: for every bitmask, `getMaxSpeed` is the speed of the first entry,
top-down, of the ordered table whose mask meets the bitmask, and `0` when no
entry does; `0x00020030` gives `1000`, `0x001c1000` gives `10000`, `0` gives
`0`. -/
theorem C2_getMaxSpeed (supp : Nat) :
    getMaxSpeed supp = tableSpeed supp ∧
    getMaxSpeed 0x00020030 = 1000 ∧ getMaxSpeed 0x001c1000 = 10000 ∧ getMaxSpeed 0 = 0 := by
  refine ⟨?_, by decide, by decide, by decide⟩
  unfold getMaxSpeed tableSpeed speedTable
  simp only [Nat.pos_iff_ne_zero]
  split_ifs <;> simp [List.find?_cons, *]

/-- A mask met by `a` is met by every `b` that holds all the bits of `a`. -/
theorem land_ne_zero_of_subset {a b : Nat} (hab : a &&& b = a) (m : Nat)
    (h : a &&& m > 0) : b &&& m > 0 := by
  by_contra hz
  have hz0 : b &&& m = 0 := by omega
  have : a &&& m = 0 := by
    rw [← hab, Nat.and_assoc, hz0]; simp
  omega

/-- C10: `getMaxSpeed` is monotone in the set of capability bits: when every
bit set in `a` is set in `b`, `getMaxSpeed a ≤ getMaxSpeed b`. -/
theorem C10_getMaxSpeed_mono (a b : Nat) (hab : a &&& b = a) :
    getMaxSpeed a ≤ getMaxSpeed b := by
  have key := land_ne_zero_of_subset hab
  unfold getMaxSpeed
  by_cases h1 : a &&& 0x78000000 > 0
  · simp [h1, key _ h1]
  by_cases h2 : a &&& 0x07800000 > 0
  · rw [if_neg h1, if_pos h2]; have := key _ h2; split_ifs <;> omega
  by_cases h3 : a &&& 0x00600000 > 0
  · rw [if_neg h1, if_neg h2, if_pos h3]; have := key _ h3; split_ifs <;> omega
  by_cases h4 : a &&& 0x001c1000 > 0
  · rw [if_neg h1, if_neg h2, if_neg h3, if_pos h4]; have := key _ h4; split_ifs <;> omega
  by_cases h5 : a &&& 0x00008000 > 0
  · rw [if_neg h1, if_neg h2, if_neg h3, if_neg h4, if_pos h5]; have := key _ h5
    split_ifs <;> omega
  by_cases h6 : a &&& 0x00020030 > 0
  · rw [if_neg h1, if_neg h2, if_neg h3, if_neg h4, if_neg h5, if_pos h6]; have := key _ h6
    split_ifs <;> omega
  by_cases h7 : a &&& 0x0000000c > 0
  · rw [if_neg h1, if_neg h2, if_neg h3, if_neg h4, if_neg h5, if_neg h6, if_pos h7]
    have := key _ h7
    split_ifs <;> omega
  by_cases h8 : a &&& 0x00000003 > 0
  · rw [if_neg h1, if_neg h2, if_neg h3, if_neg h4, if_neg h5, if_neg h6, if_neg h7, if_pos h8]
    have := key _ h8
    split_ifs <;> omega
  · rw [if_neg h1, if_neg h2, if_neg h3, if_neg h4, if_neg h5, if_neg h6, if_neg h7, if_neg h8]
    exact Nat.zero_le _

/-- C10 at `a = 0x0000000c` (speed `100`) and `b = 0x0002003c` (speed `1000`). -/
theorem C10_getMaxSpeed_mono_witness :
    (0x0000000c : Nat) &&& 0x0002003c = 0x0000000c ∧
    getMaxSpeed 0x0000000c = 100 ∧ getMaxSpeed 0x0002003c = 1000 ∧
    getMaxSpeed 0x0000000c ≤ getMaxSpeed 0x0002003c :=
  ⟨by decide, by decide, by decide,
    C10_getMaxSpeed_mono 0x0000000c 0x0002003c (by decide)⟩

/-- A value returned by `Atoi` is inside the range of `int`. -/
theorem Atoi_range {s : String} {n : Int} (h : Atoi s = some n) :
    -(2 ^ 63 : Int) ≤ n ∧ n < 2 ^ 63 := by
  unfold Atoi at h
  split at h
  · exact absurd h (by simp)
  · rename_i c cs _
    simp only [intSize] at h
    generalize (if (c == '-' || c == '+') = true then cs else c :: cs) = ds at h
    cases hneg : (c == '-') <;> simp only [hneg] at h <;> split_ifs at h <;>
      simp only [Option.some.injEq] at h <;> subst h <;>
      simp_all <;> omega

/-- A positive direct reading is returned unchanged by `readIfaceSpeed`. -/
theorem readIfaceSpeed_ok {env : Env} {file content : String} {n : Int}
    (ho : env.OpenRead file = .ok content) (hp : Atoi (TrimSpace content) = some n)
    (hn : 0 < n) : (readIfaceSpeed env file : Int) = n := by
  have hr := Atoi_range hp
  unfold readIfaceSpeed
  rw [ho]
  simp only [hp, if_pos hn, intSize]
  rw [Int.emod_eq_of_lt (by omega) (by omega)]
  omega

/-- Without a positive direct reading `readIfaceSpeed` returns `0`. -/
theorem readIfaceSpeed_none {env : Env} {file : String}
    (h : ¬ ∃ content n, env.OpenRead file = .ok content ∧
      Atoi (TrimSpace content) = some n ∧ 0 < n) : readIfaceSpeed env file = 0 := by
  unfold readIfaceSpeed
  split
  · rfl
  · rfl
  · rename_i b hb
    split
    · rename_i s hs
      split_ifs with hpos
      · exact absurd ⟨b, s, hb, hs, hpos⟩ h
      · rfl
    · rfl

/-- The fields of an emitted record. -/
theorem buildDevice_some {env : Env} {name fullpath : String} {r : NetworkDevice}
    (h : buildDevice env name fullpath = some r) :
    ∃ ifi, env.InterfaceByName name = some ifi ∧
      r.Name = name ∧
      r.MACAddress = env.slurpFile (pathJoin [fullpath, "address"]) ∧
      r.IPAddress = (getIPAddrByInterface env (some ifi)).1 ∧
      r.Port = getPortType (getSupported env name) ∧
      r.Speed = (if readIfaceSpeed env (pathJoin [fullpath, "speed"]) = 0
        then getMaxSpeed (getSupported env name)
        else readIfaceSpeed env (pathJoin [fullpath, "speed"])) ∧
      r.MTU = ifi.MTU ∧
      r.Driver = (match env.Readlink (pathJoin [fullpath, "device", "driver"]) with
        | some driver => pathBase driver
        | none => "") := by
  unfold buildDevice at h
  cases hi : env.InterfaceByName name with
  | none => simp [hi] at h
  | some ifi =>
    refine ⟨ifi, rfl, ?_⟩
    simp only [hi] at h
    cases hd : env.Readlink (pathJoin [fullpath, "device", "driver"]) with
    | none =>
      simp only [hd, Option.some.injEq] at h
      subst h
      simp
    | some d =>
      simp only [hd, Option.some.injEq] at h
      subst h
      simp

/-- A record is emitted exactly when the lookup by name succeeds. -/
theorem buildDevice_isSome (env : Env) (name fullpath : String) :
    (buildDevice env name fullpath).isSome = (env.InterfaceByName name).isSome := by
  unfold buildDevice
  cases env.InterfaceByName name with
  | none => rfl
  | some ifi =>
    cases env.Readlink (pathJoin [fullpath, "device", "driver"]) <;> rfl

/-- An entry with a resolved, non-virtual target is kept. -/
theorem isKept_of_readlink {env : Env} {name dev : String}
    (hl : env.Readlink (pathJoin [sysClassNet, name]) = some dev)
    (hv : isVirtual dev = false) : isKept env name = true := by
  unfold isKept
  rw [hl]
  unfold isVirtual at hv
  simp only [hv, Bool.not_false]

/-- Every record left by the loop was there before or belongs to a kept entry
of the listing. -/
theorem scanDevices_records {Rest : Type} (env : Env) (links : List String) :
    ∀ (si : SysInfo Rest), ∀ r ∈ (scanDevices env links si).state.Network,
      r ∈ si.Network ∨ (r.Name ∈ links ∧ isKept env r.Name = true) := by
  induction links with
  | nil => intro si r hr; exact Or.inl hr
  | cons name links ih =>
    intro si r hr
    unfold scanDevices at hr
    simp only at hr
    cases hl : env.Readlink (pathJoin [sysClassNet, name]) with
    | none =>
      rw [hl] at hr
      rcases ih si r hr with h | ⟨h1, h2⟩
      · exact Or.inl h
      · exact Or.inr ⟨List.mem_cons_of_mem _ h1, h2⟩
    | some dev =>
      rw [hl] at hr
      simp only at hr
      cases hv : isVirtual dev with
      | true =>
        rw [hv] at hr
        simp only [if_true] at hr
        rcases ih si r hr with h | ⟨h1, h2⟩
        · exact Or.inl h
        · exact Or.inr ⟨List.mem_cons_of_mem _ h1, h2⟩
      | false =>
        rw [hv] at hr
        simp only [Bool.false_eq_true, if_false] at hr
        cases hb : buildDevice env name (pathJoin [sysClassNet, name]) with
        | none =>
          rw [hb] at hr
          exact Or.inl hr
        | some device =>
          rw [hb] at hr
          simp only at hr
          rcases ih _ r hr with h | ⟨h1, h2⟩
          · simp only [List.mem_append, List.mem_singleton] at h
            rcases h with h | h
            · exact Or.inl h
            · obtain ⟨_, _, hname, _⟩ := buildDevice_some hb
              subst h
              rw [hname]
              exact Or.inr ⟨List.mem_cons_self _ _, isKept_of_readlink hl hv⟩
          · exact Or.inr ⟨List.mem_cons_of_mem _ h1, h2⟩

/-- When the lookup by name succeeds for every kept entry, the loop returns and
appends one record per kept entry, in the order of the listing. -/
theorem scanDevices_returned {Rest : Type} (env : Env) (links : List String)
    (hok : ∀ n ∈ links, isKept env n = true → (env.InterfaceByName n).isSome = true) :
    ∀ (si : SysInfo Rest), ∃ si', scanDevices env links si = .returned si' ∧
      si'.rest = si.rest ∧
      si'.Network.map (fun d => d.Name) =
        si.Network.map (fun d => d.Name) ++ links.filter (isKept env) := by
  induction links with
  | nil => intro si; exact ⟨si, rfl, rfl, by simp⟩
  | cons name links ih =>
    intro si
    have ih := ih (fun n hn => hok n (List.mem_cons_of_mem _ hn))
    unfold scanDevices
    simp only
    cases hl : env.Readlink (pathJoin [sysClassNet, name]) with
    | none =>
      have hk : isKept env name = false := by unfold isKept; rw [hl]
      obtain ⟨si', h1, h2, h3⟩ := ih si
      exact ⟨si', h1, h2, by rw [h3, List.filter_cons_of_neg (by simp [hk])]⟩
    | some dev =>
      simp only
      cases hv : isVirtual dev with
      | true =>
        have hk : isKept env name = false := by
          unfold isKept; rw [hl]; unfold isVirtual at hv; simp only [hv, Bool.not_true]
        obtain ⟨si', h1, h2, h3⟩ := ih si
        refine ⟨si', ?_, h2, by rw [h3, List.filter_cons_of_neg (by simp [hk])]⟩
        simpa using h1
      | false =>
        have hk : isKept env name = true := isKept_of_readlink hl hv
        have hsome := hok name (List.mem_cons_self _ _) hk
        rw [← buildDevice_isSome env name (pathJoin [sysClassNet, name])] at hsome
        obtain ⟨device, hb⟩ := Option.isSome_iff_exists.mp hsome
        obtain ⟨_, _, hname, _⟩ := buildDevice_some hb
        obtain ⟨si', h1, h2, h3⟩ := ih { si with Network := si.Network ++ [device] }
        refine ⟨si', ?_, h2, ?_⟩
        · simp only [Bool.false_eq_true, if_false, hb]
          exact h1
        · rw [h3, List.filter_cons_of_pos hk]
          simp [hname]

/-- When the class directory is read and the lookup by name succeeds for every
kept entry, `getNetworkInfo` returns and the names of `Network` are the kept
entries in the order of the listing, whatever `Network` held before. -/
theorem getNetworkInfo_names {Rest : Type} (env : Env) (si : SysInfo Rest)
    (devices : List String) (hd : env.ReadDir sysClassNet = some devices)
    (hok : ∀ n ∈ devices, isKept env n = true → (env.InterfaceByName n).isSome = true) :
    ∃ si', getNetworkInfo env si = .returned si' ∧ si'.rest = si.rest ∧
      si'.Network.map (fun d => d.Name) = devices.filter (isKept env) := by
  obtain ⟨si', h1, h2, h3⟩ := scanDevices_returned env devices hok { si with Network := [] }
  refine ⟨si', ?_, h2, by simpa using h3⟩
  unfold getNetworkInfo
  rw [hd]
  exact h1

/-- C3: the record of a device carries the direct speed reading `n` when the
speed attribute is read and its trimmed content parses (`strconv.Atoi`) as an
integer `n > 0`, whatever the capability bitmask `supp` is; in every other case
it carries `getMaxSpeed supp`. -/
theorem C3_resolved_speed (env : Env) (name fullpath : String) (supp : Nat)
    (r : NetworkDevice) (hs : getSupported env name = supp)
    (h : buildDevice env name fullpath = some r) :
    (∀ content n, env.OpenRead (pathJoin [fullpath, "speed"]) = .ok content →
        Atoi (TrimSpace content) = some n → 0 < n → (r.Speed : Int) = n) ∧
    ((¬ ∃ content n, env.OpenRead (pathJoin [fullpath, "speed"]) = .ok content ∧
        Atoi (TrimSpace content) = some n ∧ 0 < n) → r.Speed = getMaxSpeed supp) := by
  obtain ⟨ifi, -, -, -, -, -, hsp, -, -⟩ := buildDevice_some h
  rw [hs] at hsp
  constructor
  · intro content n ho hp hn
    have hv := readIfaceSpeed_ok ho hp hn
    have hne : readIfaceSpeed env (pathJoin [fullpath, "speed"]) ≠ 0 := by
      intro h0; rw [h0] at hv; simp at hv; omega
    rw [hsp, if_neg hne]; exact hv
  · intro hno
    rw [hsp, if_pos (readIfaceSpeed_none hno)]

/-- C3 at `eth0` of `hostEnv`: the speed attribute reads `100`, the bitmask
`0x000200b0` classifies as `1000`, the record carries `100`. -/
theorem C3_resolved_speed_witness :
    getSupported hostEnv "eth0" = 0x000200b0 ∧
    buildDevice hostEnv "eth0" "/sys/class/net/eth0" = some hostDevice ∧
    getMaxSpeed 0x000200b0 = 1000 ∧ (hostDevice.Speed : Int) = 100 :=
  ⟨by decide, by decide, by decide,
    (C3_resolved_speed hostEnv "eth0" "/sys/class/net/eth0" 0x000200b0 hostDevice
      (by decide) (by decide)).1 "100\n" 100 (by decide) (by decide) (by decide)⟩

/-- C4 (failing input): on `strayEnv` the entry `eth0` is kept by the filter and
its lookup by name fails; `getNetworkInfo` then panics on `inet.MTU` and leaves
`Network` empty: no record with `MTU = 0` is emitted and `lo` is never
reached. -/
theorem C4_lookup_failure_panics :
    strayEnv.ReadDir sysClassNet = some ["eth0", "lo"] ∧
    isKept strayEnv "eth0" = true ∧
    strayEnv.InterfaceByName "eth0" = none ∧
    getNetworkInfo strayEnv (⟨(), []⟩ : SysInfo Unit) = .panicked ⟨(), []⟩ :=
  ⟨by decide, by decide, by decide, by rfl⟩

/-- C5 (counterexample): with the class directory unreadable and the records of
an earlier scan in `Network`, `getNetworkInfo` returns and `Network` still
holds those records. -/
theorem C5_counterexample :
    unreadableEnv.ReadDir sysClassNet = none ∧
    getNetworkInfo unreadableEnv scannedInfo = .returned scannedInfo ∧
    scannedInfo.Network ≠ [] :=
  ⟨by decide, by rfl, by decide⟩

/-- C5 (amended): when reading the class directory fails, `getNetworkInfo`
returns without panic and leaves the `SysInfo` as it was; `Network` is empty
afterwards exactly when it was empty before the call. -/
theorem C5_unreadable_unchanged {Rest : Type} (env : Env) (si : SysInfo Rest)
    (h : env.ReadDir sysClassNet = none) :
    getNetworkInfo env si = .returned si ∧
    ((getNetworkInfo env si).state.Network = [] ↔ si.Network = []) := by
  have hr : getNetworkInfo env si = .returned si := by
    unfold getNetworkInfo
    rw [h]
  exact ⟨hr, by rw [hr]; rfl⟩

/-- C5 (amended) on `unreadableEnv` with a fresh `SysInfo`. -/
theorem C5_unreadable_unchanged_witness :
    unreadableEnv.ReadDir sysClassNet = none ∧
    getNetworkInfo unreadableEnv (⟨(), []⟩ : SysInfo Unit) = .returned ⟨(), []⟩ :=
  ⟨by decide, (C5_unreadable_unchanged unreadableEnv ⟨(), []⟩ (by decide)).1⟩

/-- C6: for every directory listing, no record of the `Network` list left by
`getNetworkInfo` (on return or on panic) has the name of an entry whose symlink
target begins with `../../devices/virtual/net/lo` or with
`../../devices/virtual/net/dummy`. -/
theorem C6_virtual_excluded {Rest : Type} (env : Env) (si : SysInfo Rest)
    (devices : List String) (hd : env.ReadDir sysClassNet = some devices) :
    ∀ r ∈ (getNetworkInfo env si).state.Network, ∀ n ∈ devices, ∀ dev,
      env.Readlink (pathJoin [sysClassNet, n]) = some dev →
      (HasPrefix dev "../../devices/virtual/net/lo" = true ∨
        HasPrefix dev "../../devices/virtual/net/dummy" = true) →
      r.Name ≠ n := by
  intro r hr n _ dev hl hp hname
  unfold getNetworkInfo at hr
  rw [hd] at hr
  rcases scanDevices_records env devices _ r hr with h | ⟨_, hk⟩
  · simp at h
  · rw [hname] at hk
    unfold isKept at hk
    rw [hl] at hk
    rcases hp with hp | hp <;> simp [hp] at hk

/-- C6 on `hostEnv`: the listing holds `lo`, whose target is virtual, and the
only record left is that of `eth0`. -/
theorem C6_virtual_excluded_witness :
    hostEnv.ReadDir sysClassNet = some ["eth0", "lo"] ∧
    hostEnv.Readlink (pathJoin [sysClassNet, "lo"]) = some "../../devices/virtual/net/lo" ∧
    hostDevice ∈ (getNetworkInfo hostEnv scannedInfo).state.Network ∧
    hostDevice.Name ≠ "lo" :=
  ⟨by decide, by decide, by decide,
    C6_virtual_excluded hostEnv scannedInfo ["eth0", "lo"] (by decide) hostDevice (by decide)
      "lo" (by decide) "../../devices/virtual/net/lo" (by decide) (Or.inl (by decide))⟩

/-- C7 (failing input): on `twoCardEnv` the directory read succeeds and both
entries are kept by the filter, yet `getNetworkInfo` panics at `eth1`, whose
lookup by name fails, and `Network` holds the record of `eth0` only. -/
theorem C7_names_cut_short :
    twoCardEnv.ReadDir sysClassNet = some ["eth0", "eth1"] ∧
    ["eth0", "eth1"].filter (isKept twoCardEnv) = ["eth0", "eth1"] ∧
    getNetworkInfo twoCardEnv (⟨(), []⟩ : SysInfo Unit) =
      .panicked ⟨(), [{ hostDevice with Driver := "" }]⟩ ∧
    (getNetworkInfo twoCardEnv (⟨(), []⟩ : SysInfo Unit)).state.Network.map (fun d => d.Name) ≠
      ["eth0", "eth1"].filter (isKept twoCardEnv) :=
  ⟨by decide, by decide, by rfl, by decide⟩

/-- C8: with the driver symlink unreadable the emitted record has an empty
`Driver`; a record is emitted exactly when one is emitted with the driver
symlink present, and the two agree on `Name`, `MACAddress`, `IPAddress`,
`Port`, `Speed` and `MTU`. -/
theorem C8_driver_absent (env : Env) (absent present : String → Option String)
    (name fullpath driver : String)
    (ha : absent (pathJoin [fullpath, "device", "driver"]) = none)
    (hp : present (pathJoin [fullpath, "device", "driver"]) = some driver) :
    (buildDevice { env with Readlink := absent } name fullpath).isSome =
      (buildDevice { env with Readlink := present } name fullpath).isSome ∧
    ∀ r r', buildDevice { env with Readlink := absent } name fullpath = some r →
      buildDevice { env with Readlink := present } name fullpath = some r' →
      r.Driver = "" ∧ r'.Driver = pathBase driver ∧ r.Name = r'.Name ∧
      r.MACAddress = r'.MACAddress ∧ r.IPAddress = r'.IPAddress ∧ r.Port = r'.Port ∧
      r.Speed = r'.Speed ∧ r.MTU = r'.MTU := by
  constructor
  · rw [buildDevice_isSome, buildDevice_isSome]
  · intro r r' h h'
    obtain ⟨ifi, hi, h1, h2, h3, h4, h5, h6, h7⟩ := buildDevice_some h
    obtain ⟨ifi', hi', h1', h2', h3', h4', h5', h6', h7'⟩ := buildDevice_some h'
    simp only at hi hi'
    rw [hi] at hi'
    cases hi'
    simp only [ha] at h7
    simp only [hp] at h7'
    exact ⟨h7, h7', h1.trans h1'.symm, h2.trans h2'.symm, h3.trans h3'.symm,
      h4.trans h4'.symm, h5.trans h5'.symm, h6.trans h6'.symm⟩

/-- C8 on `eth0` of `hostEnv`, without and with its driver link. -/
theorem C8_driver_absent_witness :
    buildDevice { hostEnv with Readlink := noDriverLinks } "eth0" "/sys/class/net/eth0" =
      some { hostDevice with Driver := "" } ∧
    buildDevice { hostEnv with Readlink := hostEnv.Readlink } "eth0" "/sys/class/net/eth0" =
      some hostDevice ∧
    ({ hostDevice with Driver := "" } : NetworkDevice).Driver = "" ∧
    ({ hostDevice with Driver := "" } : NetworkDevice).Speed = hostDevice.Speed :=
  have h := (C8_driver_absent hostEnv noDriverLinks hostEnv.Readlink "eth0"
    "/sys/class/net/eth0" "../../../../bus/pci/drivers/e1000" (by decide) (by decide)).2
    { hostDevice with Driver := "" } hostDevice (by decide) (by decide)
  ⟨by decide, by decide, h.1, h.2.2.2.2.2.2.1⟩

/-- C9: when opening the socket fails or the control request returns a non-zero
error code, `getSupported` returns `0`, and the record built from that probe
has an empty `Port` and, without a valid direct speed reading, `Speed = 0`. -/
theorem C9_probe_failure (env : Env) (name fullpath : String)
    (h : env.Socket name = none ∨
      ∃ fd, env.Socket name = some fd ∧ (env.Ioctl fd 0x8946 (ifrName name) 0x1).1 ≠ 0) :
    getSupported env name = 0 ∧
    ∀ r, buildDevice env name fullpath = some r →
      r.Port = "" ∧
      ((¬ ∃ content n, env.OpenRead (pathJoin [fullpath, "speed"]) = .ok content ∧
          Atoi (TrimSpace content) = some n ∧ 0 < n) → r.Speed = 0) := by
  have h0 : getSupported env name = 0 := by
    unfold getSupported
    rcases h with h | ⟨fd, h, herr⟩
    · rw [h]
    · rw [h]
      simp only [if_neg herr]
  refine ⟨h0, ?_⟩
  intro r hr
  obtain ⟨_, _, _, _, _, hport, hspeed, _, _⟩ := buildDevice_some hr
  rw [h0] at hport hspeed
  refine ⟨by rw [hport]; decide, ?_⟩
  intro hno
  rw [hspeed, if_pos (readIfaceSpeed_none hno)]
  decide

/-- C9 on `eth0` of `probeFailEnv`: no socket, no speed attribute. -/
theorem C9_probe_failure_witness :
    probeFailEnv.Socket "eth0" = none ∧ getSupported probeFailEnv "eth0" = 0 ∧
    buildDevice probeFailEnv "eth0" "/sys/class/net/eth0" =
      some { hostDevice with Port := "", Speed := 0 } ∧
    ({ hostDevice with Port := "", Speed := 0 } : NetworkDevice).Port = "" :=
  have h := C9_probe_failure probeFailEnv "eth0" "/sys/class/net/eth0" (Or.inl (by decide))
  ⟨by decide, h.1, by decide, (h.2 _ (by decide)).1⟩

end Sysinfo
